import Mathlib

/-!
Verification of the tile-grid generator in `criar_grade_tiles.py`.

The script computes a rectangular grid of Web-Mercator slippy tiles covering a
geographic bounding box at a given zoom level.  We embed the mathematical core
over the real numbers: the Python helpers `radians`, `degrees` and `int` become
the Lean functions `radians`, `degrees` and `pyInt` below, the nested `for`
loops over `range(x_min, x_max + 1)` and `range(y_min, y_max + 1)` become a
`flatMap` over explicit integer interval lists, and the `ValueError` raised on
an invalid bounding box becomes the `Except.error` branch.  The per-feature
attribute record `[x, y, zoom, lon1, lat1, lon2, lat2]` is captured by the
structure `TileDescriptor`.
-/

open Real

/-- Python `math.radians`: degrees to radians, `x * pi / 180`. -/
noncomputable def radians (x : ℝ) : ℝ := x * π / 180

/-- Python `math.degrees`: radians to degrees, `x * 180 / pi`. -/
noncomputable def degrees (x : ℝ) : ℝ := x * 180 / π

/-- Python `int(...)` applied to a float: truncation toward zero. -/
noncomputable def pyInt (r : ℝ) : ℤ := if 0 ≤ r then ⌊r⌋ else ⌈r⌉

/-- Python `range(a, b + 1)`: the list of integers from `a` to `b` inclusive,
empty when `b < a`. -/
def intRange (a b : ℤ) : List ℤ :=
  (List.range (b + 1 - a).toNat).map (fun i : ℕ => a + (i : ℤ))

/-- The attribute record `[x, y, zoom, lon_min, lat_min, lon_max, lat_max]`
stored on each emitted tile feature. -/
structure TileDescriptor where
  x : ℤ
  y : ℤ
  zoom : ℕ
  lon_min : ℝ
  lat_min : ℝ
  lon_max : ℝ
  lat_max : ℝ

/-- `latlon_to_tile_coords(lat, lon, zoom)` from the source:
`n = 2.0 ** zoom`; `xtile = int((lon + 180.0) / 360.0 * n)`;
`ytile = int((1.0 - log(tan(radians(lat)) + 1 / cos(radians(lat))) / pi) / 2.0 * n)`. -/
noncomputable def latlon_to_tile_coords (lat lon : ℝ) (zoom : ℕ) : ℤ × ℤ :=
  let n : ℝ := 2 ^ zoom
  let xtile := pyInt ((lon + 180) / 360 * n)
  let ytile := pyInt ((1 - log (tan (radians lat) + 1 / cos (radians lat)) / π) / 2 * n)
  (xtile, ytile)

/-- `tile_coords_to_bounds(x, y, zoom)` from the source:
`n = 2.0 ** zoom`; `lon1 = x / n * 360.0 - 180.0`;
`lat1 = degrees(atan(sinh(pi * (1 - 2 * y / n))))`;
`lon2 = (x + 1) / n * 360.0 - 180.0`;
`lat2 = degrees(atan(sinh(pi * (1 - 2 * (y + 1) / n))))`;
returns `(lon1, lat2, lon2, lat1)`. -/
noncomputable def tile_coords_to_bounds (x y : ℤ) (zoom : ℕ) : ℝ × ℝ × ℝ × ℝ :=
  let n : ℝ := 2 ^ zoom
  let lon1 := (x : ℝ) / n * 360 - 180
  let lat1 := degrees (arctan (sinh (π * (1 - 2 * (y : ℝ) / n))))
  let lon2 := ((x : ℝ) + 1) / n * 360 - 180
  let lat2 := degrees (arctan (sinh (π * (1 - 2 * ((y : ℝ) + 1) / n))))
  (lon1, lat2, lon2, lat1)

/-- `criar_grade_tiles(zoom, min_lon, min_lat, max_lon, max_lat)` from the
source.  It raises `ValueError` when `min_lat > max_lat or min_lon > max_lon`;
otherwise it computes `x_min, y_max = latlon_to_tile_coords(min_lat, min_lon,
zoom)` and `x_max, y_min = latlon_to_tile_coords(max_lat, max_lon, zoom)` and
emits one feature for every `x in range(x_min, x_max + 1)` and
`y in range(y_min, y_max + 1)`, with attributes taken from
`tile_coords_to_bounds(x, y, zoom) = (lon1, lat1, lon2, lat2)` as rebound at
the call site.  The host-application layer plumbing is the external
collaborator and is not modelled; the emitted attribute records are. -/
noncomputable def criar_grade_tiles (zoom : ℕ) (min_lon min_lat max_lon max_lat : ℝ) :
    Except String (List TileDescriptor) :=
  if min_lat > max_lat ∨ min_lon > max_lon then
    Except.error "As coordenadas minimas devem ser menores que as maximas."
  else
    let xy1 := latlon_to_tile_coords min_lat min_lon zoom
    let xy2 := latlon_to_tile_coords max_lat max_lon zoom
    Except.ok ((intRange xy1.1 xy2.1).flatMap (fun x =>
      (intRange xy2.2 xy1.2).map (fun y =>
        let b := tile_coords_to_bounds x y zoom
        { x := x, y := y, zoom := zoom,
          lon_min := b.1, lat_min := b.2.1, lon_max := b.2.2.1, lat_max := b.2.2.2 })))

/-! ### Basic lemmas about the embedded primitives -/

theorem pyInt_of_nonneg {r : ℝ} (h : 0 ≤ r) : pyInt r = ⌊r⌋ := by
  simp [pyInt, h]

theorem pyInt_of_neg {r : ℝ} (h : r < 0) : pyInt r = ⌈r⌉ := by
  rw [pyInt, if_neg (not_le.2 h)]

theorem pyInt_intCast (m : ℤ) : pyInt (m : ℝ) = m := by
  unfold pyInt
  split <;> simp

theorem pyInt_mono {r s : ℝ} (h : r ≤ s) : pyInt r ≤ pyInt s := by
  unfold pyInt
  split <;> split
  · exact Int.floor_le_floor h
  · rename_i hr hs
    exact absurd (hr.trans h) hs
  · rename_i hr hs
    have hr0 : r ≤ 0 := le_of_not_le hr
    calc ⌈r⌉ ≤ (0 : ℤ) := Int.ceil_le.2 (by exact_mod_cast hr0)
    _ ≤ ⌊s⌋ := Int.floor_nonneg.2 hs
  · exact Int.ceil_le_ceil h

theorem pyInt_nonneg {r : ℝ} (h : 0 ≤ r) : 0 ≤ pyInt r := by
  rw [pyInt_of_nonneg h]
  exact Int.floor_nonneg.2 h

theorem mem_intRange {a b k : ℤ} : k ∈ intRange a b ↔ a ≤ k ∧ k ≤ b := by
  unfold intRange
  simp only [List.mem_map, List.mem_range]
  constructor
  · rintro ⟨i, hi, rfl⟩
    omega
  · rintro ⟨h1, h2⟩
    exact ⟨(k - a).toNat, by omega, by omega⟩

theorem length_intRange (a b : ℤ) : (intRange a b).length = (b + 1 - a).toNat := by
  unfold intRange
  rw [List.length_map, List.length_range]

theorem nodup_intRange (a b : ℤ) : (intRange a b).Nodup := by
  unfold intRange
  refine (List.nodup_range _).map ?_
  intro i j h
  simpa using h

/-! ### Trigonometric helper lemmas -/

theorem radians_mem_Ioo {lat : ℝ} (h1 : -90 < lat) (h2 : lat < 90) :
    radians lat ∈ Set.Ioo (-(π / 2)) (π / 2) := by
  unfold radians
  constructor
  · nlinarith [pi_pos]
  · nlinarith [pi_pos]

theorem cos_radians_pos {lat : ℝ} (h1 : -90 < lat) (h2 : lat < 90) :
    0 < cos (radians lat) :=
  cos_pos_of_mem_Ioo (radians_mem_Ioo h1 h2)

theorem log_tan_add_one_div_cos {t : ℝ} (h : 0 < cos t) :
    log (tan t + 1 / cos t) = arsinh (tan t) := by
  have hsq : Real.sqrt (1 + tan t ^ 2) = 1 / cos t := by
    rw [one_div, ← inv_sqrt_one_add_tan_sq h, inv_inv]
  unfold Real.arsinh
  rw [hsq]

theorem radians_degrees (x : ℝ) : radians (degrees x) = x := by
  unfold radians degrees
  field_simp

theorem latlon_fst (lat lon : ℝ) (zoom : ℕ) :
    (latlon_to_tile_coords lat lon zoom).1 = pyInt ((lon + 180) / 360 * 2 ^ zoom) := rfl

theorem latlon_snd (lat lon : ℝ) (zoom : ℕ) :
    (latlon_to_tile_coords lat lon zoom).2 =
      pyInt ((1 - log (tan (radians lat) + 1 / cos (radians lat)) / π) / 2 * 2 ^ zoom) := rfl

theorem latlon_snd_arsinh {lat : ℝ} (lon : ℝ) (zoom : ℕ) (h1 : -90 < lat) (h2 : lat < 90) :
    (latlon_to_tile_coords lat lon zoom).2 =
      pyInt ((1 - arsinh (tan (radians lat)) / π) / 2 * 2 ^ zoom) := by
  rw [latlon_snd, log_tan_add_one_div_cos (cos_radians_pos h1 h2)]

theorem xtile_mono {lon1 lon2 : ℝ} (h : lon1 ≤ lon2) (lat1 lat2 : ℝ) (zoom : ℕ) :
    (latlon_to_tile_coords lat1 lon1 zoom).1 ≤ (latlon_to_tile_coords lat2 lon2 zoom).1 := by
  rw [latlon_fst, latlon_fst]
  apply pyInt_mono
  have hn : (0:ℝ) ≤ 2 ^ zoom := by positivity
  gcongr

theorem ytile_anti {lat1 lat2 : ℝ} (h1 : -90 < lat1) (h2 : lat2 < 90) (h : lat1 ≤ lat2)
    (lon1 lon2 : ℝ) (zoom : ℕ) :
    (latlon_to_tile_coords lat2 lon2 zoom).2 ≤ (latlon_to_tile_coords lat1 lon1 zoom).2 := by
  have h1' : -90 < lat2 := lt_of_lt_of_le h1 h
  have h2' : lat1 < 90 := lt_of_le_of_lt h h2
  rw [latlon_snd_arsinh lon2 zoom h1' h2, latlon_snd_arsinh lon1 zoom h1 h2']
  apply pyInt_mono
  have hmono : tan (radians lat1) ≤ tan (radians lat2) := by
    rcases eq_or_lt_of_le h with heq | hlt
    · rw [heq]
    · refine le_of_lt (tan_lt_tan_of_lt_of_lt_pi_div_two
        (radians_mem_Ioo h1 h2').1 (radians_mem_Ioo h1' h2).2 ?_)
      unfold radians
      nlinarith [pi_pos]
  have hars : arsinh (tan (radians lat1)) ≤ arsinh (tan (radians lat2)) :=
    arsinh_le_arsinh.2 hmono
  have hn : (0:ℝ) ≤ 2 ^ zoom := by positivity
  have hpi : (0:ℝ) < π := pi_pos
  gcongr

/-! ### Numeric bounds: `tan (85 degrees) < sinh pi`, needed to evaluate the
Mercator transform at the latitudes of the concrete spec cases. -/

theorem exp_three_gt : (2008:ℝ)/100 < exp 3 := by
  have h := exp_one_gt_d9
  have hp : ((2.7182818283:ℝ))^3 ≤ (exp 1)^3 :=
    pow_le_pow_left (by norm_num) h.le 3
  have h3 : (exp 1)^3 = exp 3 := by
    rw [← exp_nat_mul]
    norm_num
  calc (2008:ℝ)/100 < (2.7182818283:ℝ)^3 := by norm_num
  _ ≤ (exp 1)^3 := hp
  _ = exp 3 := h3

theorem exp_pi_gt : (23:ℝ) < exp π := by
  have h1 : exp 3.141592 ≤ exp π := exp_le_exp.2 pi_gt_d6.le
  have h2 : exp (3.141592:ℝ) = exp 3 * exp 0.141592 := by
    rw [← exp_add]; norm_num
  have h3 : exp (0.070796:ℝ) ^ 2 = exp 0.141592 := by
    rw [← exp_nat_mul]; norm_num
  have h4 : (1.070796:ℝ) ≤ exp 0.070796 := by
    have := add_one_le_exp (0.070796:ℝ)
    linarith
  have h5 : (1.070796:ℝ)^2 ≤ exp 0.070796 ^ 2 := pow_le_pow_left (by norm_num) h4 2
  have h6 : (23:ℝ) < 2008/100 * 1.070796^2 := by norm_num
  have h7 : (2008:ℝ)/100 * 1.070796^2 ≤ exp 3 * (1.070796:ℝ)^2 :=
    mul_le_mul_of_nonneg_right exp_three_gt.le (by norm_num)
  have h8 : exp 3 * (1.070796:ℝ)^2 ≤ exp 3 * exp 0.070796 ^ 2 :=
    mul_le_mul_of_nonneg_left h5 (exp_pos 3).le
  calc (23:ℝ) < 2008/100 * 1.070796^2 := h6
  _ ≤ exp 3 * (1.070796:ℝ)^2 := h7
  _ ≤ exp 3 * exp 0.070796 ^ 2 := h8
  _ = exp 3 * exp 0.141592 := by rw [h3]
  _ = exp 3.141592 := h2.symm
  _ ≤ exp π := h1

theorem exp_neg_pi_lt : exp (-π) < 1/20 := by
  have h1 : exp (-π) < exp (-3) := exp_lt_exp.2 (by linarith [pi_gt_three])
  have h2 : exp (-3:ℝ) = (exp 3)⁻¹ := by rw [exp_neg]
  have h20 : (20:ℝ) < exp 3 := by linarith [exp_three_gt]
  have h3 : (exp 3)⁻¹ < (20:ℝ)⁻¹ := by
    apply inv_lt_inv_of_lt (by norm_num) h20
  rw [h2] at h1
  have : ((20:ℝ))⁻¹ = 1/20 := by norm_num
  linarith

theorem sinh_pi_gt : (459:ℝ)/40 < sinh π := by
  rw [sinh_eq]
  linarith [exp_pi_gt, exp_neg_pi_lt]

theorem tan_pi_div_36_gt : π/36 < tan (π/36) :=
  lt_tan (by positivity) (by linarith [pi_pos])

theorem tan_17_pi_36_eq : tan (17 * π / 36) = (tan (π / 36))⁻¹ := by
  rw [show 17 * π / 36 = π / 2 - π / 36 by ring]
  exact tan_pi_div_two_sub _

theorem tan_pi_div_36_pos : 0 < tan (π/36) :=
  lt_trans (by positivity) tan_pi_div_36_gt

theorem tan_17_pi_36_pos : 0 < tan (17 * π / 36) := by
  rw [tan_17_pi_36_eq]
  exact inv_pos.2 tan_pi_div_36_pos

theorem tan_17_pi_36_lt_sinh_pi : tan (17 * π / 36) < sinh π := by
  rw [tan_17_pi_36_eq]
  have h0 : (0:ℝ) < π/36 := by positivity
  have h2 : (tan (π/36))⁻¹ < (π/36)⁻¹ := inv_lt_inv_of_lt h0 tan_pi_div_36_gt
  have h3 : ((π:ℝ)/36)⁻¹ = 36/π := by rw [inv_div]
  have h4 : (36:ℝ)/π < 459/40 := by
    rw [div_lt_div_iff pi_pos (by norm_num)]
    linarith [pi_gt_d6]
  linarith [sinh_pi_gt]

/-! ### Geometry of a single tile -/

theorem bounds_lon_lt (x y : ℤ) (zoom : ℕ) :
    (tile_coords_to_bounds x y zoom).1 < (tile_coords_to_bounds x y zoom).2.2.1 := by
  have hn : (0:ℝ) < 2 ^ zoom := by positivity
  have h : (x:ℝ) / 2^zoom < ((x:ℝ)+1) / 2^zoom := by
    apply (div_lt_div_right hn).2
    linarith
  simp only [tile_coords_to_bounds]
  linarith

theorem bounds_lat_lt (x y : ℤ) (zoom : ℕ) :
    (tile_coords_to_bounds x y zoom).2.1 < (tile_coords_to_bounds x y zoom).2.2.2 := by
  have hn : (0:ℝ) < 2 ^ zoom := by positivity
  have hdiv : (y:ℝ) / 2^zoom < ((y:ℝ)+1) / 2^zoom := by
    apply (div_lt_div_right hn).2
    linarith
  have harg : π * (1 - 2 * ((y : ℝ) + 1) / 2^zoom) < π * (1 - 2 * (y : ℝ) / 2^zoom) := by
    have h2 : 2 * ((y:ℝ)+1) / 2^zoom = 2 * (((y:ℝ)+1) / 2^zoom) := by ring
    have h3 : 2 * (y:ℝ) / 2^zoom = 2 * ((y:ℝ) / 2^zoom) := by ring
    rw [h2, h3]
    nlinarith [pi_pos]
  have hs : sinh (π * (1 - 2 * ((y : ℝ) + 1) / 2^zoom)) < sinh (π * (1 - 2 * (y : ℝ) / 2^zoom)) :=
    sinh_lt_sinh.2 harg
  have ha := arctan_strictMono hs
  simp only [tile_coords_to_bounds]
  unfold degrees
  exact (div_lt_div_right pi_pos).2 (by linarith)

/-- Claim C5: feeding the northwest corner of `tile_coords_to_bounds x y zoom` —
its `lat_max` (fourth component) and `lon_min` (first component) — back into
`latlon_to_tile_coords` at the same zoom returns exactly `(x, y)`.  In the
real-number semantics the round trip is exact, for every integer tile index
pair and every zoom. -/
theorem claim5_roundtrip (x y : ℤ) (zoom : ℕ) :
    latlon_to_tile_coords ((tile_coords_to_bounds x y zoom).2.2.2)
      ((tile_coords_to_bounds x y zoom).1) zoom = (x, y) := by
  have hn : (0:ℝ) < 2 ^ zoom := by positivity
  have hb2 : (tile_coords_to_bounds x y zoom).2.2.2
      = degrees (arctan (sinh (π * (1 - 2 * (y : ℝ) / 2 ^ zoom)))) := rfl
  have hb1 : (tile_coords_to_bounds x y zoom).1 = (x : ℝ) / 2 ^ zoom * 360 - 180 := rfl
  have hx : (latlon_to_tile_coords ((tile_coords_to_bounds x y zoom).2.2.2)
      ((tile_coords_to_bounds x y zoom).1) zoom).1 = x := by
    rw [latlon_fst, hb1]
    have e1 : ((x : ℝ) / 2 ^ zoom * 360 - 180 + 180) / 360 * 2 ^ zoom = (x : ℝ) := by
      field_simp
      ring
    rw [e1, pyInt_intCast]
  have hy : (latlon_to_tile_coords ((tile_coords_to_bounds x y zoom).2.2.2)
      ((tile_coords_to_bounds x y zoom).1) zoom).2 = y := by
    rw [latlon_snd, hb2, radians_degrees,
      log_tan_add_one_div_cos (cos_arctan_pos _), tan_arctan, arsinh_sinh]
    have e2 : (1 - π * (1 - 2 * (y : ℝ) / 2 ^ zoom) / π) / 2 * 2 ^ zoom = (y : ℝ) := by
      rw [mul_div_cancel_left₀ _ (ne_of_gt pi_pos)]
      field_simp
      ring
    rw [e2, pyInt_intCast]
  exact Prod.ext hx hy

/-! ### Evaluation helpers -/

theorem pyInt_eq_zero {r : ℝ} (h0 : 0 ≤ r) (h1 : r < 1) : pyInt r = 0 := by
  rw [pyInt_of_nonneg h0]
  exact Int.floor_eq_zero_iff.2 ⟨h0, h1⟩

theorem pyInt_one : pyInt 1 = 1 := by
  rw [pyInt_of_nonneg (by norm_num)]
  exact Int.floor_one

theorem pyInt_bounds {r : ℝ} {n : ℤ} (h0 : 0 ≤ r) (h1 : r < (n:ℝ)) :
    0 ≤ pyInt r ∧ pyInt r ≤ n - 1 := by
  rw [pyInt_of_nonneg h0]
  refine ⟨Int.floor_nonneg.2 h0, ?_⟩
  have := Int.floor_lt.2 h1
  omega

theorem criar_grade_tiles_ok {zoom : ℕ} {min_lon min_lat max_lon max_lat : ℝ}
    (h1 : min_lat ≤ max_lat) (h2 : min_lon ≤ max_lon) :
    criar_grade_tiles zoom min_lon min_lat max_lon max_lat =
      Except.ok ((intRange (latlon_to_tile_coords min_lat min_lon zoom).1
                           (latlon_to_tile_coords max_lat max_lon zoom).1).flatMap (fun x =>
        (intRange (latlon_to_tile_coords max_lat max_lon zoom).2
                  (latlon_to_tile_coords min_lat min_lon zoom).2).map (fun y =>
          let b := tile_coords_to_bounds x y zoom
          { x := x, y := y, zoom := zoom,
            lon_min := b.1, lat_min := b.2.1, lon_max := b.2.2.1, lat_max := b.2.2.2 }))) := by
  unfold criar_grade_tiles
  rw [if_neg]
  push_neg
  exact ⟨h1, h2⟩

theorem criar_grade_tiles_error_of {zoom : ℕ} {min_lon min_lat max_lon max_lat : ℝ}
    (h : min_lat > max_lat ∨ min_lon > max_lon) :
    criar_grade_tiles zoom min_lon min_lat max_lon max_lat =
      Except.error "As coordenadas minimas devem ser menores que as maximas." := by
  unfold criar_grade_tiles
  rw [if_pos h]

theorem map_pair_grid (x1 x2 y1 y2 : ℤ) (zoom : ℕ) :
    (((intRange x1 x2).flatMap (fun x => (intRange y1 y2).map (fun y =>
      let b := tile_coords_to_bounds x y zoom
      ({ x := x, y := y, zoom := zoom, lon_min := b.1, lat_min := b.2.1,
         lon_max := b.2.2.1, lat_max := b.2.2.2 } : TileDescriptor)))).map
        (fun d => (d.x, d.y)))
    = (intRange x1 x2).flatMap (fun x => (intRange y1 y2).map (fun y => (x, y))) := by
  rw [List.map_flatMap]
  congr 1
  funext x
  rw [List.map_map]
  rfl

theorem nodup_grid_pairs (x1 x2 y1 y2 : ℤ) :
    ((intRange x1 x2).flatMap (fun x => (intRange y1 y2).map (fun y => (x, y)))).Nodup := by
  have hpr : (intRange x1 x2).flatMap (fun x => (intRange y1 y2).map (fun y => (x, y)))
      = intRange x1 x2 ×ˢ intRange y1 y2 := rfl
  rw [hpr]
  exact (nodup_intRange x1 x2).product (nodup_intRange y1 y2)

theorem mem_grid_pairs (x1 x2 y1 y2 a b : ℤ) :
    (a, b) ∈ (intRange x1 x2).flatMap (fun x => (intRange y1 y2).map (fun y => (x, y))) ↔
      x1 ≤ a ∧ a ≤ x2 ∧ y1 ≤ b ∧ b ≤ y2 := by
  have hpr : (intRange x1 x2).flatMap (fun x => (intRange y1 y2).map (fun y => (x, y)))
      = intRange x1 x2 ×ˢ intRange y1 y2 := rfl
  rw [hpr, List.mem_product, mem_intRange, mem_intRange]
  tauto

theorem length_grid_pairs (x1 x2 y1 y2 : ℤ) (zoom : ℕ) :
    ((intRange x1 x2).flatMap (fun x => (intRange y1 y2).map (fun y =>
      let b := tile_coords_to_bounds x y zoom
      ({ x := x, y := y, zoom := zoom, lon_min := b.1, lat_min := b.2.1,
         lon_max := b.2.2.1, lat_max := b.2.2.2 } : TileDescriptor)))).length
    = (x2 + 1 - x1).toNat * (y2 + 1 - y1).toNat := by
  have h1 : ((intRange x1 x2).flatMap (fun x => (intRange y1 y2).map (fun y =>
      let b := tile_coords_to_bounds x y zoom
      ({ x := x, y := y, zoom := zoom, lon_min := b.1, lat_min := b.2.1,
         lon_max := b.2.2.1, lat_max := b.2.2.2 } : TileDescriptor)))).length
      = (((intRange x1 x2).flatMap (fun x => (intRange y1 y2).map (fun y =>
      let b := tile_coords_to_bounds x y zoom
      ({ x := x, y := y, zoom := zoom, lon_min := b.1, lat_min := b.2.1,
         lon_max := b.2.2.1, lat_max := b.2.2.2 } : TileDescriptor)))).map
        (fun d => (d.x, d.y))).length := by
    rw [List.length_map]
  rw [h1, map_pair_grid]
  have hpr : (intRange x1 x2).flatMap (fun x => (intRange y1 y2).map (fun y => (x, y)))
      = intRange x1 x2 ×ˢ intRange y1 y2 := rfl
  rw [hpr, List.length_product, length_intRange, length_intRange]

/-! ### Concrete evaluations of the forward transform -/

theorem arsinh_tan_85_pos : 0 < arsinh (tan (17 * π / 36)) :=
  arsinh_pos_iff.2 tan_17_pi_36_pos

theorem arsinh_tan_85_lt_pi : arsinh (tan (17 * π / 36)) < π := by
  have h := arsinh_lt_arsinh.2 tan_17_pi_36_lt_sinh_pi
  rwa [arsinh_sinh] at h

theorem latlon_00 : latlon_to_tile_coords 0 0 0 = (0, 0) := by
  have hr0 : radians (0:ℝ) = 0 := by unfold radians; simp
  have hx : (latlon_to_tile_coords (0:ℝ) 0 0).1 = 0 := by
    rw [latlon_fst]
    have e : ((0:ℝ) + 180) / 360 * 2 ^ (0:ℕ) = 1/2 := by norm_num
    rw [e, pyInt_eq_zero (by norm_num) (by norm_num)]
  have hy : (latlon_to_tile_coords (0:ℝ) 0 0).2 = 0 := by
    rw [latlon_snd_arsinh 0 0 (by norm_num) (by norm_num), hr0, tan_zero, arsinh_zero]
    have e : (1 - (0:ℝ) / π) / 2 * 2 ^ (0:ℕ) = 1/2 := by
      rw [zero_div]
      norm_num
    rw [e, pyInt_eq_zero (by norm_num) (by norm_num)]
  exact Prod.ext hx hy

theorem latlon_neg85 : latlon_to_tile_coords (-85) (-180) 0 = (0, 0) := by
  have hpi := pi_pos
  have ha1 := arsinh_tan_85_pos
  have ha2 := arsinh_tan_85_lt_pi
  have hx : (latlon_to_tile_coords (-85:ℝ) (-180) 0).1 = 0 := by
    rw [latlon_fst]
    have e : ((-180:ℝ) + 180) / 360 * 2 ^ (0:ℕ) = 0 := by norm_num
    rw [e, pyInt_eq_zero le_rfl (by norm_num)]
  have hy : (latlon_to_tile_coords (-85:ℝ) (-180) 0).2 = 0 := by
    rw [latlon_snd_arsinh (-180) 0 (by norm_num) (by norm_num)]
    have hr : radians (-85:ℝ) = -(17 * π / 36) := by unfold radians; ring
    rw [hr, tan_neg, arsinh_neg]
    have hd0 : 0 < arsinh (tan (17 * π / 36)) / π := div_pos ha1 hpi
    have hd1 : arsinh (tan (17 * π / 36)) / π < 1 := (div_lt_one hpi).2 ha2
    apply pyInt_eq_zero
    · rw [pow_zero, mul_one, neg_div, sub_neg_eq_add]
      linarith
    · rw [pow_zero, mul_one, neg_div, sub_neg_eq_add]
      linarith
  exact Prod.ext hx hy

theorem latlon_85 : latlon_to_tile_coords 85 180 0 = (1, 0) := by
  have hpi := pi_pos
  have ha1 := arsinh_tan_85_pos
  have ha2 := arsinh_tan_85_lt_pi
  have hx : (latlon_to_tile_coords (85:ℝ) 180 0).1 = 1 := by
    rw [latlon_fst]
    have e : ((180:ℝ) + 180) / 360 * 2 ^ (0:ℕ) = 1 := by norm_num
    rw [e, pyInt_one]
  have hy : (latlon_to_tile_coords (85:ℝ) 180 0).2 = 0 := by
    rw [latlon_snd_arsinh 180 0 (by norm_num) (by norm_num)]
    have hr : radians (85:ℝ) = 17 * π / 36 := by unfold radians; ring
    rw [hr]
    have hd0 : 0 < arsinh (tan (17 * π / 36)) / π := div_pos ha1 hpi
    have hd1 : arsinh (tan (17 * π / 36)) / π < 1 := (div_lt_one hpi).2 ha2
    apply pyInt_eq_zero
    · rw [pow_zero, mul_one]
      linarith
    · rw [pow_zero, mul_one]
      linarith
  exact Prod.ext hx hy

/-! ### The claims -/

/-- Claim C3: `tile_coords_to_bounds x y zoom` returns the rectangle
`(lon_min, lat_min, lon_max, lat_max)` with `lon_min = x/n*360 - 180`,
`lon_max = (x+1)/n*360 - 180`, `lat_max` the inverse-Mercator expression
`atan(sinh(pi*(1 - 2*y/n))) * 180/pi` at `y` and `lat_min` the same expression
at `y + 1`, where `n = 2^zoom`: the northwest corner comes from `(x, y)` and
the southeast corner from `(x+1, y+1)`. -/
theorem claim3_bounds_formula (x y : ℤ) (zoom : ℕ) :
    tile_coords_to_bounds x y zoom =
      ((x : ℝ) / 2 ^ zoom * 360 - 180,
       arctan (sinh (π * (1 - 2 * ((y : ℝ) + 1) / 2 ^ zoom))) * 180 / π,
       ((x : ℝ) + 1) / 2 ^ zoom * 360 - 180,
       arctan (sinh (π * (1 - 2 * (y : ℝ) / 2 ^ zoom))) * 180 / π) := rfl

/-- Claim C9: horizontally adjacent tiles share their common meridian exactly
(`lon_max` of `(x, y)` equals `lon_min` of `(x+1, y)`) and vertically adjacent
tiles share their common parallel exactly (`lat_min` of `(x, y)` equals
`lat_max` of `(x, y+1)`), so the tiling has no gap or overlap. -/
theorem claim9_adjacency (x y : ℤ) (zoom : ℕ) :
    (tile_coords_to_bounds x y zoom).2.2.1 = (tile_coords_to_bounds (x + 1) y zoom).1 ∧
    (tile_coords_to_bounds x y zoom).2.1 = (tile_coords_to_bounds x (y + 1) zoom).2.2.2 := by
  constructor
  · simp only [tile_coords_to_bounds]
    push_cast
    ring
  · simp only [tile_coords_to_bounds]
    push_cast
    ring

/-- Claim C4: `criar_grade_tiles` fails exactly when `min_lat > max_lat` or
`min_lon > max_lon`; in the `Except` embedding the error carries no partial
output, so the operation is atomic.  In particular the call with `zoom = 5`
and bbox `(min_lon = 10, min_lat = 50, max_lon = 5, max_lat = 60)` fails. -/
theorem claim4_invalid_bounds :
    (∀ (zoom : ℕ) (min_lon min_lat max_lon max_lat : ℝ),
      (∃ e, criar_grade_tiles zoom min_lon min_lat max_lon max_lat = Except.error e) ↔
        (min_lat > max_lat ∨ min_lon > max_lon)) ∧
    (∃ e, criar_grade_tiles 5 10 50 5 60 = Except.error e) := by
  have hmain : ∀ (zoom : ℕ) (min_lon min_lat max_lon max_lat : ℝ),
      (∃ e, criar_grade_tiles zoom min_lon min_lat max_lon max_lat = Except.error e) ↔
        (min_lat > max_lat ∨ min_lon > max_lon) := by
    intro zoom min_lon min_lat max_lon max_lat
    constructor
    · rintro ⟨e, he⟩
      by_contra hcond
      push_neg at hcond
      rw [criar_grade_tiles_ok hcond.1 hcond.2] at he
      exact Except.noConfusion he
    · intro h
      exact ⟨_, criar_grade_tiles_error_of h⟩
  exact ⟨hmain, (hmain 5 10 50 5 60).2 (by norm_num)⟩

/-- Claim C10: every attribute record emitted by `criar_grade_tiles` satisfies
`lon_min < lon_max` and `lat_min < lat_max`: the longitude expression is
strictly increasing in `x`, the latitude expression is strictly decreasing in
`y`, and the code puts the `y+1` latitude in the `lat_min` slot. -/
theorem claim10_descriptor_extents (zoom : ℕ) (min_lon min_lat max_lon max_lat : ℝ)
    (l : List TileDescriptor)
    (h : criar_grade_tiles zoom min_lon min_lat max_lon max_lat = Except.ok l) :
    ∀ d ∈ l, d.lon_min < d.lon_max ∧ d.lat_min < d.lat_max := by
  by_cases hc : min_lat > max_lat ∨ min_lon > max_lon
  · rw [criar_grade_tiles_error_of hc] at h
    exact Except.noConfusion h
  · push_neg at hc
    rw [criar_grade_tiles_ok hc.1 hc.2] at h
    injection h with h
    subst h
    intro d hd
    rw [List.mem_flatMap] at hd
    obtain ⟨x, hx, hd⟩ := hd
    rw [List.mem_map] at hd
    obtain ⟨y, hy, rfl⟩ := hd
    exact ⟨bounds_lon_lt x y zoom, bounds_lat_lt x y zoom⟩

/-- Witness for C10: at zoom 0 with the degenerate bbox `(0, 0, 0, 0)` the
grid is produced successfully and each of its records has nonempty extent. -/
theorem claim10_descriptor_extents_witness :
    ∃ l : List TileDescriptor, criar_grade_tiles 0 0 0 0 0 = Except.ok l ∧
      ∀ d ∈ l, d.lon_min < d.lon_max ∧ d.lat_min < d.lat_max :=
  ⟨_, criar_grade_tiles_ok le_rfl le_rfl,
    claim10_descriptor_extents 0 0 0 0 0 _ (criar_grade_tiles_ok le_rfl le_rfl)⟩

/-- Claim C6, evaluated: at zoom 0 with bbox `(-180, -85, 180, 85)` the code
emits TWO descriptors, with tile indices `(0, 0)` and `(1, 0)`, because
`max_lon = 180` maps to `x_max = int(360/360 * 1) = 1 = 2^0`, one past the last
valid zoom-0 column.  The spec asserts exactly one tile `(0, 0)`. -/
theorem claim6_zoom0_two_tiles :
    ∃ l : List TileDescriptor,
      criar_grade_tiles 0 (-180) (-85) 180 85 = Except.ok l ∧
      l.map (fun d => (d.x, d.y)) = [(0, 0), (1, 0)] := by
  refine ⟨_, criar_grade_tiles_ok (by norm_num) (by norm_num), ?_⟩
  rw [map_pair_grid, latlon_neg85, latlon_85]
  decide

/-- Claim C2, counterexample: at `lat = 0`, `lon = -250`, `zoom = 0` the code
computes `int(-70/360) = 0` (truncation toward zero) while the claimed
floor-based formula gives `-1`, so `latlon_to_tile_coords` does NOT truncate
toward negative infinity. -/
theorem claim2_counterexample :
    latlon_to_tile_coords 0 (-250) 0 ≠
      (⌊((-250 : ℝ) + 180) / 360 * 2 ^ (0:ℕ)⌋,
       ⌊(1 - log (tan (radians (0:ℝ)) + 1 / cos (radians (0:ℝ))) / π) / 2 * 2 ^ (0:ℕ)⌋) := by
  intro h
  have e : ((-250:ℝ) + 180) / 360 * 2 ^ (0:ℕ) = -(7/36) := by norm_num
  have hx : (latlon_to_tile_coords (0:ℝ) (-250) 0).1 = 0 := by
    rw [latlon_fst, e, pyInt_of_neg (by norm_num), Int.ceil_eq_zero_iff]
    constructor <;> norm_num
  have hfl : ⌊((-250 : ℝ) + 180) / 360 * 2 ^ (0:ℕ)⌋ = -1 := by
    rw [e, Int.floor_eq_iff]
    constructor <;> norm_num
  have hcontra := congrArg Prod.fst h
  rw [hx] at hcontra
  simp only [] at hcontra
  rw [hfl] at hcontra
  exact absurd hcontra (by decide)

/-- Claim C2 (amended): `latlon_to_tile_coords` truncates toward zero (Python
`int`), which agrees with the claimed floor formula whenever both intermediate
values are nonnegative: for `lon ≥ -180` and any latitude whose Mercator term
`ln(tan(lat_rad) + sec(lat_rad))` is at most `pi` (i.e. latitudes north of the
southern tile-range boundary), the result is exactly the pair of floors. -/
theorem claim2_floor_on_nonneg (lat lon : ℝ) (zoom : ℕ)
    (hlon : -180 ≤ lon)
    (hlat : log (tan (radians lat) + 1 / cos (radians lat)) ≤ π) :
    latlon_to_tile_coords lat lon zoom =
      (⌊(lon + 180) / 360 * 2 ^ zoom⌋,
       ⌊(1 - log (tan (radians lat) + 1 / cos (radians lat)) / π) / 2 * 2 ^ zoom⌋) := by
  have hn : (0:ℝ) ≤ 2 ^ zoom := by positivity
  have hx : 0 ≤ (lon + 180) / 360 * 2 ^ zoom := by
    have h0 : (0:ℝ) ≤ lon + 180 := by linarith
    exact mul_nonneg (div_nonneg h0 (by norm_num)) hn
  have hy : 0 ≤ (1 - log (tan (radians lat) + 1 / cos (radians lat)) / π) / 2 * 2 ^ zoom := by
    have hdiv : log (tan (radians lat) + 1 / cos (radians lat)) / π ≤ 1 :=
      (div_le_one pi_pos).2 hlat
    have h0 : (0:ℝ) ≤ (1 - log (tan (radians lat) + 1 / cos (radians lat)) / π) / 2 := by
      linarith
    exact mul_nonneg h0 hn
  exact Prod.ext (by rw [latlon_fst, pyInt_of_nonneg hx])
    (by rw [latlon_snd, pyInt_of_nonneg hy])

/-- Witness for the amended C2 at `lat = 0`, `lon = 0`, `zoom = 0`. -/
theorem claim2_floor_on_nonneg_witness :
    latlon_to_tile_coords 0 0 0 =
      (⌊((0:ℝ) + 180) / 360 * 2 ^ (0:ℕ)⌋,
       ⌊(1 - log (tan (radians (0:ℝ)) + 1 / cos (radians (0:ℝ))) / π) / 2 * 2 ^ (0:ℕ)⌋) :=
  claim2_floor_on_nonneg 0 0 0 (by norm_num) (by
    have hr0 : radians (0:ℝ) = 0 := by unfold radians; simp
    rw [hr0, Real.tan_zero, Real.cos_zero]
    rw [show (0:ℝ) + 1/1 = 1 by norm_num, Real.log_one]
    exact pi_pos.le)

/-- Claim C7, counterexample: `lat = 0` satisfies `|lat| < 85.05`, yet at
`lon = 400` and `zoom = 0` the x index is `int(580/360) = 1`, outside
`[0, 2^0 - 1] = [0, 0]`: the claimed range property fails without a bound on
the longitude. -/
theorem claim7_counterexample :
    ¬ ((latlon_to_tile_coords 0 400 0).1 ≤ 2 ^ (0:ℕ) - 1) := by
  have hx : (latlon_to_tile_coords (0:ℝ) 400 0).1 = 1 := by
    rw [latlon_fst]
    have e : ((400:ℝ) + 180) / 360 * 2 ^ (0:ℕ) = 29/18 := by norm_num
    rw [e, pyInt_of_nonneg (by norm_num)]
    rw [Int.floor_eq_iff]
    constructor <;> norm_num
  rw [hx]
  decide

theorem abs_radians_lt {lat bound : ℝ} (h : |lat| < bound) :
    |radians lat| < radians bound := by
  unfold radians
  have habs : |lat * π / 180| = |lat| * π / 180 := by
    rw [abs_div, abs_mul, abs_of_pos pi_pos]
    norm_num
  rw [habs]
  have hp : (0:ℝ) < π / 180 := by positivity
  calc |lat| * π / 180 = |lat| * (π / 180) := by ring
  _ < bound * (π / 180) := mul_lt_mul_of_pos_right h hp
  _ = bound * π / 180 := by ring

/-- Claim C7 (amended): for every zoom, every longitude with
`-180 ≤ lon < 180` and every latitude with `|lat|` strictly below the exact
tile-range boundary `atan(sinh(pi)) * 180/pi` (≈ 85.0511, of which the 85.05
in the spec is the conventional rounding), `latlon_to_tile_coords` returns
indices inside `[0, 2^zoom - 1]` on both axes. -/
theorem claim7_index_range (lat lon : ℝ) (zoom : ℕ)
    (h1 : -180 ≤ lon) (h2 : lon < 180)
    (h3 : |lat| < degrees (arctan (sinh π))) :
    0 ≤ (latlon_to_tile_coords lat lon zoom).1 ∧
    (latlon_to_tile_coords lat lon zoom).1 ≤ 2 ^ zoom - 1 ∧
    0 ≤ (latlon_to_tile_coords lat lon zoom).2 ∧
    (latlon_to_tile_coords lat lon zoom).2 ≤ 2 ^ zoom - 1 := by
  have hn : (0:ℝ) < 2 ^ zoom := by positivity
  have hnc : (((2:ℤ) ^ zoom : ℤ) : ℝ) = (2:ℝ) ^ zoom := by push_cast; rfl
  have hx0 : 0 ≤ (lon + 180) / 360 * 2 ^ zoom := by
    have h0 : (0:ℝ) ≤ lon + 180 := by linarith
    exact mul_nonneg (div_nonneg h0 (by norm_num)) hn.le
  have hx1 : (lon + 180) / 360 * 2 ^ zoom < (((2:ℤ) ^ zoom : ℤ) : ℝ) := by
    rw [hnc]
    have hlt : (lon + 180) / 360 < 1 := by
      rw [div_lt_one (by norm_num)]
      linarith
    calc (lon + 180) / 360 * 2 ^ zoom < 1 * 2 ^ zoom := mul_lt_mul_of_pos_right hlt hn
    _ = 2 ^ zoom := one_mul _
  obtain ⟨hxa, hxb⟩ := pyInt_bounds hx0 hx1
  have hA : arctan (sinh π) < π / 2 := arctan_lt_pi_div_two _
  have habs : |radians lat| < arctan (sinh π) := by
    have h := abs_radians_lt h3
    rwa [radians_degrees] at h
  obtain ⟨habs1, habs2⟩ := abs_lt.1 habs
  have ht1 : -(π/2) < radians lat := by linarith
  have ht2 : radians lat < π / 2 := by linarith
  have hcos : 0 < cos (radians lat) := cos_pos_of_mem_Ioo ⟨ht1, ht2⟩
  have htanub : tan (radians lat) < sinh π := by
    have h := tan_lt_tan_of_lt_of_lt_pi_div_two ht1 hA habs2
    rwa [tan_arctan] at h
  have htanlb : -sinh π < tan (radians lat) := by
    have hneg : -(π/2) < -arctan (sinh π) := by linarith
    have h := tan_lt_tan_of_lt_of_lt_pi_div_two hneg ht2 (by linarith)
    rwa [tan_neg, tan_arctan] at h
  have hu1 : arsinh (tan (radians lat)) < π := by
    have h := arsinh_lt_arsinh.2 htanub
    rwa [arsinh_sinh] at h
  have hu2 : -π < arsinh (tan (radians lat)) := by
    have h := arsinh_lt_arsinh.2 htanlb
    rwa [← sinh_neg, arsinh_sinh] at h
  have hdivub : arsinh (tan (radians lat)) / π < 1 := (div_lt_one pi_pos).2 hu1
  have hdivlb : -1 < arsinh (tan (radians lat)) / π := by
    have h : -π / π < arsinh (tan (radians lat)) / π := (div_lt_div_right pi_pos).2 hu2
    rwa [neg_div, div_self (ne_of_gt pi_pos)] at h
  have hy0 : 0 ≤ (1 - arsinh (tan (radians lat)) / π) / 2 * 2 ^ zoom := by
    have h0 : (0:ℝ) ≤ (1 - arsinh (tan (radians lat)) / π) / 2 := by linarith
    exact mul_nonneg h0 hn.le
  have hy1 : (1 - arsinh (tan (radians lat)) / π) / 2 * 2 ^ zoom < (((2:ℤ) ^ zoom : ℤ) : ℝ) := by
    rw [hnc]
    have hlt : (1 - arsinh (tan (radians lat)) / π) / 2 < 1 := by linarith
    calc (1 - arsinh (tan (radians lat)) / π) / 2 * 2 ^ zoom < 1 * 2 ^ zoom :=
      mul_lt_mul_of_pos_right hlt hn
    _ = 2 ^ zoom := one_mul _
  obtain ⟨hya, hyb⟩ := pyInt_bounds hy0 hy1
  have hsnd : (latlon_to_tile_coords lat lon zoom).2
      = pyInt ((1 - arsinh (tan (radians lat)) / π) / 2 * 2 ^ zoom) := by
    rw [latlon_snd, log_tan_add_one_div_cos hcos]
  refine ⟨?_, ?_, ?_, ?_⟩
  · rw [latlon_fst]; exact hxa
  · rw [latlon_fst]; exact hxb
  · rw [hsnd]; exact hya
  · rw [hsnd]; exact hyb

/-- Witness for the amended C7 at `lat = 0`, `lon = 0`, `zoom = 0`. -/
theorem claim7_index_range_witness :
    0 ≤ (latlon_to_tile_coords 0 0 0).1 ∧
    (latlon_to_tile_coords 0 0 0).1 ≤ 2 ^ (0:ℕ) - 1 ∧
    0 ≤ (latlon_to_tile_coords 0 0 0).2 ∧
    (latlon_to_tile_coords 0 0 0).2 ≤ 2 ^ (0:ℕ) - 1 :=
  claim7_index_range 0 0 0 (by norm_num) (by norm_num) (by
    rw [abs_zero]
    unfold degrees
    have hs : (0:ℝ) < sinh π := sinh_pos_iff.2 pi_pos
    have ha : (0:ℝ) < arctan (sinh π) := by
      have h := arctan_strictMono hs
      rwa [arctan_zero] at h
    exact div_pos (mul_pos ha (by norm_num)) pi_pos)

/-- Claim C8: when validation passes and both latitudes lie strictly inside
`(-90, 90)`, the computed index ranges are nonempty — `x_min ≤ x_max` because
the longitude expression and `int` truncation are monotone, and
`y_min ≤ y_max` because the Mercator expression is antitone in latitude — so
`criar_grade_tiles` emits at least one tile descriptor. -/
theorem claim8_nonempty (zoom : ℕ) (min_lon min_lat max_lon max_lat : ℝ)
    (hlat : min_lat ≤ max_lat) (hlon : min_lon ≤ max_lon)
    (hlo : -90 < min_lat) (hhi : max_lat < 90) :
    (latlon_to_tile_coords min_lat min_lon zoom).1 ≤
      (latlon_to_tile_coords max_lat max_lon zoom).1 ∧
    (latlon_to_tile_coords max_lat max_lon zoom).2 ≤
      (latlon_to_tile_coords min_lat min_lon zoom).2 ∧
    ∃ l : List TileDescriptor,
      criar_grade_tiles zoom min_lon min_lat max_lon max_lat = Except.ok l ∧ l ≠ [] := by
  have hx := xtile_mono hlon min_lat max_lat zoom
  have hy := ytile_anti hlo hhi hlat min_lon max_lon zoom
  refine ⟨hx, hy, _, criar_grade_tiles_ok hlat hlon, ?_⟩
  apply List.ne_nil_of_mem
  exact List.mem_flatMap.2 ⟨_, mem_intRange.2 ⟨le_rfl, hx⟩,
    List.mem_map.2 ⟨_, mem_intRange.2 ⟨le_rfl, hy⟩, rfl⟩⟩

/-- Witness for C8 at zoom 0, bbox `(0, 0, 0, 0)`. -/
theorem claim8_nonempty_witness :
    (latlon_to_tile_coords 0 0 0).1 ≤ (latlon_to_tile_coords 0 0 0).1 ∧
    (latlon_to_tile_coords 0 0 0).2 ≤ (latlon_to_tile_coords 0 0 0).2 ∧
    ∃ l : List TileDescriptor,
      criar_grade_tiles 0 0 0 0 0 = Except.ok l ∧ l ≠ [] :=
  claim8_nonempty 0 0 0 0 0 le_rfl le_rfl (by norm_num) (by norm_num)

/-- Claim C1: for a valid bounding box (with the latitudes inside the domain
`(-90, 90)` of the Mercator transform), `criar_grade_tiles` succeeds; writing
`(x_min, y_max) = latlon_to_tile_coords(min_lat, min_lon, zoom)` and
`(x_max, y_min) = latlon_to_tile_coords(max_lat, max_lon, zoom)` — the minimum
latitude yields the maximum y index — the emitted descriptors carry each
integer pair of `[x_min, x_max] × [y_min, y_max]` exactly once (no-duplicates
plus the membership characterisation), each descriptor footprint is
`tile_coords_to_bounds` of its indices, and the number of descriptors is
`(x_max - x_min + 1) * (y_max - y_min + 1)`. -/
theorem claim1_grid_enumeration (zoom : ℕ) (min_lon min_lat max_lon max_lat : ℝ)
    (hlat : min_lat ≤ max_lat) (hlon : min_lon ≤ max_lon)
    (hlo : -90 < min_lat) (hhi : max_lat < 90) :
    ∃ l : List TileDescriptor,
      criar_grade_tiles zoom min_lon min_lat max_lon max_lat = Except.ok l ∧
      (l.map (fun d => (d.x, d.y))).Nodup ∧
      (∀ a b : ℤ, (a, b) ∈ l.map (fun d => (d.x, d.y)) ↔
        ((latlon_to_tile_coords min_lat min_lon zoom).1 ≤ a ∧
         a ≤ (latlon_to_tile_coords max_lat max_lon zoom).1 ∧
         (latlon_to_tile_coords max_lat max_lon zoom).2 ≤ b ∧
         b ≤ (latlon_to_tile_coords min_lat min_lon zoom).2)) ∧
      (∀ d ∈ l, d.zoom = zoom ∧
        (d.lon_min, d.lat_min, d.lon_max, d.lat_max) = tile_coords_to_bounds d.x d.y zoom) ∧
      (l.length : ℤ) =
        ((latlon_to_tile_coords max_lat max_lon zoom).1 -
          (latlon_to_tile_coords min_lat min_lon zoom).1 + 1) *
        ((latlon_to_tile_coords min_lat min_lon zoom).2 -
          (latlon_to_tile_coords max_lat max_lon zoom).2 + 1) := by
  refine ⟨_, criar_grade_tiles_ok hlat hlon, ?_, ?_, ?_, ?_⟩
  · rw [map_pair_grid]
    exact nodup_grid_pairs _ _ _ _
  · intro a b
    rw [map_pair_grid]
    exact mem_grid_pairs _ _ _ _ a b
  · intro d hd
    rw [List.mem_flatMap] at hd
    obtain ⟨x, hx, hd⟩ := hd
    rw [List.mem_map] at hd
    obtain ⟨y, hy, rfl⟩ := hd
    exact ⟨rfl, rfl⟩
  · rw [length_grid_pairs]
    have hx := xtile_mono hlon min_lat max_lat zoom
    have hy := ytile_anti hlo hhi hlat min_lon max_lon zoom
    have h1 : (((latlon_to_tile_coords max_lat max_lon zoom).1 + 1 -
        (latlon_to_tile_coords min_lat min_lon zoom).1).toNat : ℤ) =
        (latlon_to_tile_coords max_lat max_lon zoom).1 + 1 -
        (latlon_to_tile_coords min_lat min_lon zoom).1 := Int.toNat_of_nonneg (by omega)
    have h2 : (((latlon_to_tile_coords min_lat min_lon zoom).2 + 1 -
        (latlon_to_tile_coords max_lat max_lon zoom).2).toNat : ℤ) =
        (latlon_to_tile_coords min_lat min_lon zoom).2 + 1 -
        (latlon_to_tile_coords max_lat max_lon zoom).2 := Int.toNat_of_nonneg (by omega)
    rw [Nat.cast_mul, h1, h2]
    ring

/-- Witness for C1 at zoom 0, bbox `(0, 0, 0, 0)`. -/
theorem claim1_grid_enumeration_witness :
    ∃ l : List TileDescriptor,
      criar_grade_tiles 0 0 0 0 0 = Except.ok l ∧
      (l.map (fun d => (d.x, d.y))).Nodup ∧
      (∀ a b : ℤ, (a, b) ∈ l.map (fun d => (d.x, d.y)) ↔
        ((latlon_to_tile_coords 0 0 0).1 ≤ a ∧
         a ≤ (latlon_to_tile_coords 0 0 0).1 ∧
         (latlon_to_tile_coords 0 0 0).2 ≤ b ∧
         b ≤ (latlon_to_tile_coords 0 0 0).2)) ∧
      (∀ d ∈ l, d.zoom = 0 ∧
        (d.lon_min, d.lat_min, d.lon_max, d.lat_max) = tile_coords_to_bounds d.x d.y 0) ∧
      (l.length : ℤ) =
        ((latlon_to_tile_coords 0 0 0).1 - (latlon_to_tile_coords 0 0 0).1 + 1) *
        ((latlon_to_tile_coords 0 0 0).2 - (latlon_to_tile_coords 0 0 0).2 + 1) :=
  claim1_grid_enumeration 0 0 0 0 0 le_rfl le_rfl (by norm_num) (by norm_num)
